import Mathlib

/-!
Verification of the Privacy Transform & Credential-Derived Encryption Engine
(`PrivacyTransformService`) and of the demo `SimpleEmbeddingService` against the
engine's specification.

Modelling conventions for the shallow embedding:
* JavaScript 32-bit integer coercions (`<< 5`, `& 0xffffffff`) are modelled on `ℤ`
  by an explicit `toInt32` wrap-around; all the intermediate values of the seeded
  PRNG stay far below 2^53, so JavaScript float64 arithmetic on them is exact and
  the integer model is faithful.
* The JavaScript remainder operator `%` (sign of the dividend) is modelled by `jsRem`.
* JavaScript floating-point arithmetic inside the matrix pipeline is modelled by
  exact real arithmetic (`ℝ`); the PRNG outputs themselves are exact rationals.
  In `ℝ` the division of a zero row by its zero norm yields `0` where JavaScript
  would yield `NaN`; either way the source signals no error, which is the fact
  relevant to the claims about degenerate rows.
* Platform primitives that are not part of the repository (WebCrypto AES-GCM,
  `TextEncoder`/`TextDecoder`, `btoa`/`atob`, `crypto.subtle.importKey`) are
  abstracted as fields of a `Platform` structure; the contracts those primitives
  guarantee are taken as explicit hypotheses of the theorems that need them.
* `await` points of the async methods are the suspension points of the
  single-threaded cooperative execution model; the lifecycle state machine
  (`Step`/`Reachable`) has one transition per synchronous segment between them,
  exactly as the segments appear in `initializeMatrix` / `initializeMatrixFromHash`
  / `clearMatrix`.
-/

namespace Vault

/-! ## Seeded PRNG (`generateOrthogonalMatrix`, source lines 30-41)

`seedValue = ((seedValue << 5) - seedValue + seedHash.charCodeAt(i)) & 0xffffffff`
folds the seed string into a signed 32-bit integer; then
`seed = (seed * 9301 + 49297) % 233280; return seed / 233280` is the LCG. -/

/-- Truncation of an integer to a signed 32-bit value, the effect of
JavaScript's `<<` and `& 0xffffffff` coercions (ToInt32). -/
def toInt32 (x : ℤ) : ℤ := (x + 2 ^ 31) % 2 ^ 32 - 2 ^ 31

/-- One character step of the rolling hash:
`acc = ((acc << 5) - acc + c) & 0xffffffff`.  `acc << 5` itself wraps to a
signed 32-bit value before the subtraction and addition (which are then exact
in float64), and the final `& 0xffffffff` wraps again. -/
def foldStep (acc : ℤ) (c : ℕ) : ℤ := toInt32 (toInt32 (acc * 32) - acc + c)

/-- Folding a whole string of UTF-16 code units into the initial LCG state. -/
def foldSeed (cs : List ℕ) : ℤ := cs.foldl foldStep 0

/-- JavaScript's remainder operator `%` for a positive divisor: the result has
the sign of the dividend and magnitude `< b`. -/
def jsRem (a b : ℤ) : ℤ := if 0 ≤ a then a % b else -((-a) % b)

/-- One LCG update: `seed = (seed * 9301 + 49297) % 233280`. -/
def lcgNext (s : ℤ) : ℤ := jsRem (s * 9301 + 49297) 233280

/-- LCG state after `k` updates from initial state `s0`. -/
def lcgState (s0 : ℤ) : ℕ → ℤ
  | 0 => s0
  | k + 1 => lcgNext (lcgState s0 k)

/-- The `k`-th (0-based) value returned by `seededRandom()`:
the state is updated first and then divided by 233280. -/
def prngOutput (s0 : ℤ) (k : ℕ) : ℚ := (lcgState s0 (k + 1) : ℚ) / 233280

/-- The `k`-th raw matrix entry in row-major fill order:
`matrix[i][j] = seededRandom() - 0.5`. -/
def initialEntry (s0 : ℤ) (k : ℕ) : ℚ := prngOutput s0 k - 1 / 2

/-- UTF-16 code units of a string (the hash strings fed to the PRNG are ASCII
hex, for which `charCodeAt` agrees with the code point). -/
def strCodes (s : String) : List ℕ := s.toList.map Char.toNat

/-! ## Matrix pipeline (`generateOrthogonalMatrix`, source lines 26-82)

The matrix is an `N×N` array of numbers; the Gram-Schmidt loop normalizes row
`i` in place and then immediately subtracts the projection onto the normalized
row `i` from every later row `k > i` (modified Gram-Schmidt, exactly the loop
structure of the source). -/

/-- A square matrix of reals, row index first, as in `matrix[i][j]`. -/
def Mat (n : ℕ) : Type := Fin n → Fin n → ℝ

/-- Dot product of two rows / vectors: `Σ_j u_j * v_j`. -/
noncomputable def dotv {n : ℕ} (u v : Fin n → ℝ) : ℝ := ∑ j, u j * v j

/-- Euclidean norm of a row: `Math.sqrt(Σ_j u_j²)`. -/
noncomputable def normv {n : ℕ} (u : Fin n → ℝ) : ℝ := Real.sqrt (dotv u u)

/-- The normalization half of one Gram-Schmidt iteration:
`matrix[i][j] /= norm` for all `j`, other rows untouched. -/
noncomputable def gsNormalize {n : ℕ} (M : Mat n) (i : Fin n) : Mat n :=
  fun r c => if r = i then M i c / normv (M i) else M r c

/-- One full iteration `i` of the Gram-Schmidt loop: normalize row `i`, then
for each row `k > i` subtract `dot * matrix[i][j]` where
`dot = Σ_j matrix[i][j] * matrix[k][j]` uses the already-normalized row `i`. -/
noncomputable def gsStep {n : ℕ} (M : Mat n) (i : Fin n) : Mat n :=
  fun r c =>
    if i < r then
      gsNormalize M i r c - dotv (gsNormalize M i i) (gsNormalize M i r) * gsNormalize M i i c
    else gsNormalize M i r c

/-- The Gram-Schmidt loop after its first `k` iterations (`for i in 0..k-1`). -/
noncomputable def gsUpTo {n : ℕ} (M : Mat n) : ℕ → Mat n
  | 0 => M
  | k + 1 => if h : k < n then gsStep (gsUpTo M k) ⟨k, h⟩ else gsUpTo M k

/-- The complete Gram-Schmidt pass of the source (`for i in 0..size-1`).
Note the codomain: the source returns a matrix unconditionally; there is no
error value for a degenerate (zero-norm) row anywhere in this pipeline. -/
noncomputable def gramSchmidt {n : ℕ} (M : Mat n) : Mat n := gsUpTo M n

/-- The run of Gram-Schmidt on `M` never meets a zero-norm row: at each
iteration `k`, row `k` of the partially processed matrix has nonzero
self-dot-product at the moment it is normalized. -/
def Nondegenerate {n : ℕ} (M : Mat n) : Prop :=
  ∀ (k : ℕ) (h : k < n), dotv (gsUpTo M k ⟨k, h⟩) (gsUpTo M k ⟨k, h⟩) ≠ 0

/-- Invariant of the Gram-Schmidt loop: after `k` iterations the first `k`
rows are orthonormal and every remaining row is orthogonal to them. -/
def OrthoBelow {n : ℕ} (A : Mat n) (k : ℕ) : Prop :=
  (∀ i j : Fin n, i.val < k → j.val < k → dotv (A i) (A j) = if i = j then 1 else 0) ∧
  (∀ i r : Fin n, i.val < k → k ≤ r.val → dotv (A i) (A r) = 0)

/-- The all-zero matrix: a degenerate Gram-Schmidt input (every row norm is 0). -/
noncomputable def zeroMat (n : ℕ) : Mat n := fun _ _ => 0

/-- Dot product of two embeddings represented as lists (the interface type of
`transformEmbedding`). -/
noncomputable def dotList (u v : List ℝ) : ℝ := (List.zipWith (· * ·) u v).sum

/-- Euclidean norm of an embedding list. -/
noncomputable def normList (u : List ℝ) : ℝ := Real.sqrt (dotList u u)

/-- Cosine similarity of two embedding lists. -/
noncomputable def cosineList (u v : List ℝ) : ℝ := dotList u v / (normList u * normList v)

/-- The deterministic random matrix before orthogonalization:
`matrix[i][j] = seededRandom() - 0.5`, filled row-major, entries cast from the
exact rational PRNG outputs. -/
noncomputable def initialMatrixR (n : ℕ) (s0 : ℤ) : Mat n :=
  fun i j => ((initialEntry s0 (i.val * n + j.val) : ℚ) : ℝ)

/-- `generateOrthogonalMatrix(size, seedHash)`: fold the seed hash into the
PRNG state, fill the matrix, and run Gram-Schmidt. -/
noncomputable def generateOrthogonalMatrix (n : ℕ) (seedHash : String) : Mat n :=
  gramSchmidt (initialMatrixR n (foldSeed (strCodes seedHash)))

/-! ## Service state and operations (`PrivacyTransformService`) -/

/-- `private readonly MATRIX_SIZE = 384`. -/
def MATRIX_SIZE : ℕ := 384

/-- The error kinds of the engine, by the taxonomy of the specification.
The source throws generic `Error`s; the mapping is by message:
"Privacy seed must be exactly 6 digits" is `invalidSeedFormat`,
"... not initialized. Call initializeMatrix() first." is `notInitialized`,
"Expected 384-dimensional embedding, got N" is `dimensionMismatch N`,
a rejection from `atob` is `badBase64`, and a rejection from
`crypto.subtle.decrypt` (failed tag verification) is `decryptionFailure`.
Note there is no constructor for a matrix-construction failure: the source has
no such error on any path. -/
inductive VaultError where
  | invalidSeedFormat
  | notInitialized
  | dimensionMismatch (got : ℕ)
  | badBase64
  | decryptionFailure
deriving DecidableEq

/-- The three private fields of `PrivacyTransformService`:
`matrix`, `encryptionKey`, `currentSeed`, each nullable.  `n` is the
`MATRIX_SIZE` constant and `K` the opaque `CryptoKey` type. -/
structure ServiceState (n : ℕ) (K : Type) where
  matrix : Option (Mat n)
  encryptionKey : Option K
  currentSeed : Option String

/-- The platform primitives used by the source but implemented by the runtime,
not by the repository: UTF-8 text encoding/decoding, AES-GCM with key import,
and base64 (`btoa`/`atob`, which can reject invalid input).
`aesEncrypt key iv plaintext` yields ciphertext-with-tag bytes. -/
structure Platform (K : Type) where
  utf8Encode : String → List ℕ
  utf8Decode : List ℕ → String
  importKey : List ℕ → K
  aesEncrypt : K → List ℕ → List ℕ → List ℕ
  aesDecrypt : K → List ℕ → List ℕ → Option (List ℕ)
  btoa : List ℕ → String
  atob : String → Option (List ℕ)

/-- `generateEncryptionKey(seedHashString)`: UTF-8-encode
`seedHashString.substring(0, 64)` (the hex characters themselves, not their
hex-decoded bytes) and import the first 32 bytes as the AES-256 key. -/
def generateEncryptionKey {K : Type} (P : Platform K) (seedHashString : String) : K :=
  P.importKey ((P.utf8Encode (seedHashString.take 64)).take 32)

/-- `encryptText(text)`: require the key, then output
`btoa(iv ++ AES-GCM-encrypt(key, iv, utf8(text)))`.  The 12-byte IV produced by
`crypto.getRandomValues(new Uint8Array(12))` is passed as the `iv` argument
(the platform RNG is not part of the repository). -/
def encryptText {K : Type} {n : ℕ} (P : Platform K) (st : ServiceState n K)
    (iv : List ℕ) (text : String) : Except VaultError String :=
  match st.encryptionKey with
  | none => .error .notInitialized
  | some key => .ok (P.btoa (iv ++ P.aesEncrypt key iv (P.utf8Encode text)))

/-- `decryptText(encryptedData)`: require the key, base64-decode, split the
first 12 bytes as the IV and the rest as ciphertext+tag, AES-GCM-decrypt, and
UTF-8-decode the result.  A decryption rejection propagates as
`decryptionFailure`; no plaintext is produced on that path. -/
def decryptText {K : Type} {n : ℕ} (P : Platform K) (st : ServiceState n K)
    (encryptedData : String) : Except VaultError String :=
  match st.encryptionKey with
  | none => .error .notInitialized
  | some key =>
    match P.atob encryptedData with
    | none => .error .badBase64
    | some combined =>
      match P.aesDecrypt key (combined.take 12) (combined.drop 12) with
      | none => .error .decryptionFailure
      | some decryptedBuffer => .ok (P.utf8Decode decryptedBuffer)

/-- `transformEmbedding(embedding)`: the length check against `MATRIX_SIZE`
comes first (before the matrix-presence check, as in the source), then
`transformed[i] = Σ_j matrix[i][j] * embedding[j]`. -/
noncomputable def transformEmbedding {n : ℕ} {K : Type} (st : ServiceState n K)
    (embedding : List ℝ) : Except VaultError (List ℝ) :=
  if embedding.length = n then
    match st.matrix with
    | none => .error .notInitialized
    | some M =>
        .ok ((List.finRange n).map (fun i => dotv (M i) (fun j => embedding.getD j.val 0)))
  else .error (.dimensionMismatch embedding.length)

/-- `validateSeed(seed)`: the test `/^\d{6}$/.test(seed)` — exactly six
characters, each an ASCII digit. -/
def validateSeed (s : String) : Bool := s.toList.length == 6 && s.toList.all Char.isDigit

/-- The synchronous entry segment of `initializeMatrix(username, password, seed)`:
the seed is validated and an invalid seed throws before any hashing starts. -/
def initializeMatrixGate (seed : String) : Except VaultError Unit :=
  if validateSeed seed then .ok () else .error .invalidSeedFormat

/-- The synchronous entry segment of `initializeMatrixFromHash(credentialsHash, seed)`:
identical seed gate before any digest is computed. -/
def initializeMatrixFromHashGate (seed : String) : Except VaultError Unit :=
  if validateSeed seed then .ok () else .error .invalidSeedFormat

/-- `isMatrixReady()`: `matrix !== null && encryptionKey !== null`. -/
def isMatrixReady {n : ℕ} {K : Type} (st : ServiceState n K) : Bool :=
  st.matrix.isSome && st.encryptionKey.isSome

/-- The hash string hardcoded in the demo's `SimpleEmbeddingService.decryptText`
("Hardcode the frontend key that was logged"). -/
def hardcodedSeedHashString : String :=
  "2cee7b938e3c0cbf9fc87714c5a6ef29687cfc6247eb23417e41da548f084070"

/-- The demo's `SimpleEmbeddingService.decryptText(encryptedData, credentialsHash,
seed)`: the whole body is inside `try { ... } catch { return encryptedData }`, and
the key material comes from `hardcodedSeedHashString`, never from the
`credentialsHash` / `seed` arguments. -/
def simpleDecryptText {K : Type} (P : Platform K)
    (encryptedData credentialsHash seed : String) : String :=
  let keyMaterial := P.utf8Encode (hardcodedSeedHashString.take 64)
  let encryptionKey := P.importKey (keyMaterial.take 32)
  match P.atob encryptedData with
  | none => encryptedData
  | some combined =>
    match P.aesDecrypt encryptionKey (combined.take 12) (combined.drop 12) with
    | none => encryptedData
    | some decryptedBuffer => P.utf8Decode decryptedBuffer

/-! ## Lifecycle state machine

One transition per synchronous segment of the async methods (the `await`s on
`crypto.subtle.digest` and `crypto.subtle.importKey` are the suspension
points).  The digest and import results are modelled nondeterministically since
their values are opaque to the lifecycle logic:

* `callInit`: the call validates the seed and suspends on the credentials
  digest — no field changes yet (an invalid seed admits no transition at all:
  the method throws before doing anything).
* `resolveHash`: the digest resolves, `this.matrix` is assigned, and the
  method suspends on `importKey` — the key and seed fields keep their old
  values across this suspension.
* `resolveKey`: the import resolves and `this.encryptionKey`/`this.currentSeed`
  are assigned.
* `clear`: `clearMatrix()` nulls the three fields synchronously; it does not
  cancel in-flight initializations, so their pending continuations survive. -/

/-- An in-flight initialization: suspended on the credentials digest, or
(matrix already set) suspended on the key import. -/
inductive PendingInit where
  | awaitingHash (seed : String)
  | awaitingKey (seedHash : String) (seed : String)
deriving DecidableEq

/-- A machine state: the service fields plus the continuations of in-flight
initializations. -/
structure MState (K : Type) where
  svc : ServiceState MATRIX_SIZE K
  pending : List PendingInit

/-- Labels identifying which operation a transition models. -/
inductive StepLabel where
  | callInit (seed : String)
  | resolveHash (seed seedHash : String)
  | resolveKey (seedHash seed : String)
  | clear

/-- The transition relation of the lifecycle (see the section comment). -/
inductive Step {K : Type} (P : Platform K) : MState K → StepLabel → MState K → Prop where
  | callInit {m : MState K} {seed : String} (h : validateSeed seed = true) :
      Step P m (.callInit seed) ⟨m.svc, .awaitingHash seed :: m.pending⟩
  | resolveHash {m : MState K} {seed seedHash : String}
      (h : PendingInit.awaitingHash seed ∈ m.pending) :
      Step P m (.resolveHash seed seedHash)
        ⟨⟨some (generateOrthogonalMatrix MATRIX_SIZE seedHash), m.svc.encryptionKey,
           m.svc.currentSeed⟩,
         .awaitingKey seedHash seed :: m.pending.erase (.awaitingHash seed)⟩
  | resolveKey {m : MState K} {seedHash seed : String}
      (h : PendingInit.awaitingKey seedHash seed ∈ m.pending) :
      Step P m (.resolveKey seedHash seed)
        ⟨⟨m.svc.matrix, some (generateEncryptionKey P seedHash), some seed⟩,
         m.pending.erase (.awaitingKey seedHash seed)⟩
  | clear {m : MState K} :
      Step P m .clear ⟨⟨none, none, none⟩, m.pending⟩

/-- The state of a freshly constructed service: all fields null, nothing in
flight. -/
def initialMState (K : Type) : MState K := ⟨⟨none, none, none⟩, []⟩

/-- States reachable from the initial state by any interleaving of the public
operations. -/
inductive Reachable {K : Type} (P : Platform K) : MState K → Prop where
  | init : Reachable P (initialMState K)
  | step {m m' : MState K} {l : StepLabel} : Reachable P m → Step P m l m' → Reachable P m'

/-! ## Concrete fixtures used by witnesses and counterexamples -/

/-- A platform whose base64 decoder rejects everything (used to exercise the
failure branches). -/
def trivialPlatform : Platform Unit :=
  ⟨fun _ => [], fun _ => "", fun _ => (), fun _ _ pt => pt, fun _ _ ct => some ct,
   fun _ => "", fun _ => none⟩

/-- A platform that round-trips the specific 12-zero-byte buffer (enough to
instantiate the round-trip contracts at the witness's inputs). -/
def okPlatform : Platform Unit :=
  ⟨fun _ => [], fun _ => "", fun _ => (), fun _ _ pt => pt, fun _ _ ct => some ct,
   fun _ => "", fun _ => some (List.replicate 12 0)⟩

/-- A platform whose AES-GCM decrypt rejects everything (a permanently failing
authentication tag). -/
def rejectPlatform : Platform Unit :=
  ⟨fun _ => [], fun _ => "", fun _ => (), fun _ _ pt => pt, fun _ _ _ => none,
   fun _ => "", fun _ => some []⟩

/-- A session holding only the encryption key (as seen by `encryptText` /
`decryptText`, which read no other field). -/
def keyState : ServiceState MATRIX_SIZE Unit := ⟨none, some (), none⟩

/-- A session with no matrix and no key: the state before any initialize call
and the state right after `clearMatrix()`. -/
def emptyState (K : Type) : ServiceState MATRIX_SIZE K := ⟨none, none, none⟩

/-- The machine state in the middle of an `initializeMatrix` call, at the
suspension point between the matrix assignment and the key assignment. -/
noncomputable def midState (K : Type) : MState K :=
  ⟨⟨some (generateOrthogonalMatrix MATRIX_SIZE "h"), none, none⟩,
   [.awaitingKey "h" "123456"]⟩

/-- A fully initialized session (used to show the length check fires even when
everything is present). -/
noncomputable def readyState : ServiceState MATRIX_SIZE Unit :=
  ⟨some (generateOrthogonalMatrix MATRIX_SIZE "h"), some (), some "123456"⟩

/-- The 1×1 orthogonal matrix generated from seed hash "a" (the claim-C1
witness instance: the pipeline is dimension-generic, `MATRIX_SIZE` only fixes
the service instantiation). -/
noncomputable def c1SeedMatrix : Mat 1 := generateOrthogonalMatrix 1 "a"

/-- A 1-dimensional session holding `c1SeedMatrix`. -/
noncomputable def c1State : ServiceState 1 Unit := ⟨some c1SeedMatrix, none, none⟩

/-- The transform of the embedding `[1]` under `c1SeedMatrix`. -/
noncomputable def c1Output : List ℝ :=
  (List.finRange 1).map (fun i => dotv (c1SeedMatrix i) (fun j => ([(1:ℝ)]).getD j.val 0))

/-- The seed-hash code units for the claim-C8 counterexample: "aaaaaaa" folds
to the negative 32-bit value -1236860927. -/
def negFoldCodes : List ℕ := strCodes "aaaaaaa"

end Vault

namespace Vault

/-! ## Dot product algebra -/

lemma dotv_comm {n : ℕ} (u v : Fin n → ℝ) : dotv u v = dotv v u := by
  simp [dotv, mul_comm]

lemma dotv_self_nonneg {n : ℕ} (u : Fin n → ℝ) : 0 ≤ dotv u u :=
  Finset.sum_nonneg fun _ _ => mul_self_nonneg _

lemma dotv_div_left {n : ℕ} (u v : Fin n → ℝ) (s : ℝ) :
    dotv (fun c => u c / s) v = dotv u v / s := by
  simp [dotv, Finset.sum_div, div_mul_eq_mul_div]

lemma dotv_div_right {n : ℕ} (u v : Fin n → ℝ) (s : ℝ) :
    dotv u (fun c => v c / s) = dotv u v / s := by
  simp [dotv, Finset.sum_div, mul_div_assoc]

lemma dotv_sub_right {n : ℕ} (u v w : Fin n → ℝ) :
    dotv u (fun c => v c - w c) = dotv u v - dotv u w := by
  simp [dotv, mul_sub, Finset.sum_sub_distrib]

lemma dotv_mul_right {n : ℕ} (u v : Fin n → ℝ) (t : ℝ) :
    dotv u (fun c => t * v c) = t * dotv u v := by
  simp [dotv, Finset.mul_sum, mul_left_comm]

lemma dotv_normalized_self {n : ℕ} (u : Fin n → ℝ) (h : dotv u u ≠ 0) :
    dotv (fun c => u c / normv u) (fun c => u c / normv u) = 1 := by
  rw [dotv_div_left, dotv_div_right, normv, div_div,
    Real.mul_self_sqrt (dotv_self_nonneg u), div_self h]

/-! ## Shape of one Gram-Schmidt iteration -/

lemma gsNormalize_self {n : ℕ} (M : Mat n) (i : Fin n) :
    gsNormalize M i i = fun c => M i c / normv (M i) := by
  funext c; simp [gsNormalize]

lemma gsNormalize_other {n : ℕ} (M : Mat n) {i r : Fin n} (h : r ≠ i) :
    gsNormalize M i r = M r := by
  funext c; simp [gsNormalize, h]

lemma dotv_gsNormalize_left {n : ℕ} (M : Mat n) (i : Fin n) (v : Fin n → ℝ) :
    dotv (gsNormalize M i i) v = dotv (M i) v / normv (M i) := by
  rw [gsNormalize_self, dotv_div_left]

lemma dotv_gsNormalize_right {n : ℕ} (M : Mat n) (i : Fin n) (v : Fin n → ℝ) :
    dotv v (gsNormalize M i i) = dotv v (M i) / normv (M i) := by
  rw [gsNormalize_self, dotv_div_right]

lemma dotv_gsNormalize_self {n : ℕ} (M : Mat n) (i : Fin n) (h : dotv (M i) (M i) ≠ 0) :
    dotv (gsNormalize M i i) (gsNormalize M i i) = 1 := by
  rw [gsNormalize_self]; exact dotv_normalized_self _ h

lemma gsStep_row_self {n : ℕ} (A : Mat n) (i : Fin n) :
    gsStep A i i = gsNormalize A i i := by
  funext c; simp [gsStep, lt_irrefl]

lemma gsStep_row_lt {n : ℕ} (A : Mat n) {i r : Fin n} (h : r < i) : gsStep A i r = A r := by
  funext c
  have h1 : ¬ i < r := not_lt_of_gt h
  have h2 : r ≠ i := ne_of_lt h
  simp [gsStep, h1, gsNormalize, h2]

lemma gsStep_row_gt {n : ℕ} (A : Mat n) {i r : Fin n} (h : i < r) :
    gsStep A i r = fun c =>
      A r c - dotv (gsNormalize A i i) (A r) * gsNormalize A i i c := by
  funext c
  have h2 : r ≠ i := ne_of_gt h
  simp only [gsStep, if_pos h]
  rw [gsNormalize_other A h2]

lemma dotv_gsStep_right {n : ℕ} (A : Mat n) {i r : Fin n} (h : i < r) (x : Fin n → ℝ) :
    dotv x (gsStep A i r) =
      dotv x (A r) - dotv (gsNormalize A i i) (A r) * dotv x (gsNormalize A i i) := by
  rw [gsStep_row_gt A h,
    dotv_sub_right x (A r) (fun c => dotv (gsNormalize A i i) (A r) * gsNormalize A i i c),
    dotv_mul_right]

/-! ## The Gram-Schmidt invariant -/

lemma gsUpTo_succ_eq {n : ℕ} (M : Mat n) (k : ℕ) (h : k < n) :
    gsUpTo M (k + 1) = gsStep (gsUpTo M k) ⟨k, h⟩ := by
  simp [gsUpTo, h]

theorem gsUpTo_ortho {n : ℕ} (M : Mat n) (hnd : Nondegenerate M) :
    ∀ k, k ≤ n → OrthoBelow (gsUpTo M k) k := by
  intro k
  induction k with
  | zero =>
    intro _
    exact ⟨fun i j hi _ => absurd hi (Nat.not_lt_zero _),
           fun i r hi _ => absurd hi (Nat.not_lt_zero _)⟩
  | succ k ih =>
    intro hk1
    have hkn : k < n := hk1
    obtain ⟨IH1, IH2⟩ := ih hkn.le
    set A := gsUpTo M k with hA
    set ik : Fin n := ⟨k, hkn⟩ with hik
    have hd : dotv (A ik) (A ik) ≠ 0 := hnd k hkn
    have hvik : ik.val = k := rfl
    rw [gsUpTo_succ_eq M k hkn]
    have hrow_lt : ∀ i : Fin n, i.val < k → gsStep A ik i = A i := by
      intro i hi
      exact gsStep_row_lt A (show i < ik from hi)
    have hrow_self : gsStep A ik ik = gsNormalize A ik ik := gsStep_row_self A ik
    constructor
    · intro i j hi hj
      rcases Nat.lt_succ_iff_lt_or_eq.mp hi with hi' | hi'
      · rcases Nat.lt_succ_iff_lt_or_eq.mp hj with hj' | hj'
        · rw [hrow_lt i hi', hrow_lt j hj']
          exact IH1 i j hi' hj'
        · have hje : j = ik := Fin.ext (by rw [hvik]; exact hj')
          have hne : i ≠ j := Fin.ne_of_val_ne (by omega)
          rw [hje, hrow_lt i hi', hrow_self, dotv_gsNormalize_right,
            IH2 i ik hi' (le_of_eq hvik.symm), zero_div, if_neg (hje ▸ hne)]
      · have hie : i = ik := Fin.ext (by rw [hvik]; exact hi')
        rcases Nat.lt_succ_iff_lt_or_eq.mp hj with hj' | hj'
        · have hne : i ≠ j := Fin.ne_of_val_ne (by omega)
          rw [hie, hrow_lt j hj', hrow_self, dotv_gsNormalize_left, dotv_comm,
            IH2 j ik hj' (le_of_eq hvik.symm), zero_div, if_neg (hie ▸ hne)]
        · have hje : j = ik := Fin.ext (by rw [hvik]; exact hj')
          rw [hie, hje, hrow_self, dotv_gsNormalize_self A ik hd, if_pos rfl]
    · intro i r hi hr
      have hrk : ik < r := show (ik : Fin n).val < r.val by omega
      rcases Nat.lt_succ_iff_lt_or_eq.mp hi with hi' | hi'
      · rw [hrow_lt i hi', dotv_gsStep_right A hrk (A i), dotv_gsNormalize_right,
          IH2 i r hi' (by omega), IH2 i ik hi' (le_of_eq hvik.symm), zero_div, mul_zero,
          sub_zero]
      · have hie : i = ik := Fin.ext (by rw [hvik]; exact hi')
        rw [hie, hrow_self, dotv_gsStep_right A hrk (gsNormalize A ik ik),
          dotv_gsNormalize_self A ik hd, mul_one]
        rw [dotv_comm]
        exact sub_self _

theorem gramSchmidt_orthonormal {n : ℕ} (M : Mat n) (hnd : Nondegenerate M) (i j : Fin n) :
    dotv (gramSchmidt M i) (gramSchmidt M j) = if i = j then 1 else 0 :=
  (gsUpTo_ortho M hnd n le_rfl).1 i j i.isLt j.isLt

/-! ## Orthonormal rows give orthonormal columns, and the transform preserves
dot products -/

lemma row_ortho_col {n : ℕ} (G : Mat n)
    (h : ∀ i j : Fin n, dotv (G i) (G j) = if i = j then 1 else 0) (j l : Fin n) :
    (∑ i, G i j * G i l) = if j = l then 1 else 0 := by
  have h1 : (Matrix.of G) * Matrix.transpose (Matrix.of G) = 1 := by
    ext i j
    simpa [Matrix.mul_apply, Matrix.one_apply, dotv] using h i j
  have h2 : Matrix.transpose (Matrix.of G) * (Matrix.of G) = 1 := Matrix.mul_eq_one_comm.mp h1
  have h3 : (Matrix.transpose (Matrix.of G) * Matrix.of G) j l =
      (1 : Matrix (Fin n) (Fin n) ℝ) j l := by
    rw [h2]
  simpa [Matrix.mul_apply, Matrix.one_apply] using h3

lemma dotv_transform {n : ℕ} (G : Mat n)
    (h : ∀ i j : Fin n, dotv (G i) (G j) = if i = j then 1 else 0) (x y : Fin n → ℝ) :
    (∑ i, dotv (G i) x * dotv (G i) y) = dotv x y := by
  have hcol := row_ortho_col G h
  calc ∑ i, dotv (G i) x * dotv (G i) y
      = ∑ i, ∑ j, ∑ l, (G i j * x j) * (G i l * y l) := by
        refine Finset.sum_congr rfl fun i _ => ?_
        rw [dotv, dotv, Finset.sum_mul_sum]
    _ = ∑ j, ∑ l, (∑ i, G i j * G i l) * (x j * y l) := by
        rw [Finset.sum_comm]
        refine Finset.sum_congr rfl fun j _ => ?_
        rw [Finset.sum_comm]
        refine Finset.sum_congr rfl fun l _ => ?_
        rw [Finset.sum_mul]
        refine Finset.sum_congr rfl fun i _ => ?_
        ring
    _ = ∑ j, ∑ l, (if j = l then (1:ℝ) else 0) * (x j * y l) := by
        refine Finset.sum_congr rfl fun j _ => Finset.sum_congr rfl fun l _ => ?_
        rw [hcol j l]
    _ = ∑ j, x j * y j := by
        refine Finset.sum_congr rfl fun j _ => ?_
        simp only [ite_mul, one_mul, zero_mul]
        rw [Finset.sum_ite_eq]
        simp
    _ = dotv x y := rfl

/-! ## Bridging list embeddings and `Fin`-indexed vectors -/

lemma zipWith_mul_same {β : Type} (f g : β → ℝ) :
    ∀ (l : List β), List.zipWith (· * ·) (l.map f) (l.map g) = l.map (fun x => f x * g x) := by
  intro l
  rw [List.zipWith_map]
  induction l with
  | nil => rfl
  | cons a t ih => simp [ih]

lemma dotList_map_finRange {n : ℕ} (f g : Fin n → ℝ) :
    dotList ((List.finRange n).map f) ((List.finRange n).map g) = ∑ i, f i * g i := by
  rw [dotList, zipWith_mul_same, Fin.sum_univ_def]

lemma dotList_eq_sum_getD {n : ℕ} : ∀ (u v : List ℝ), u.length = n → v.length = n →
    dotList u v = ∑ i : Fin n, u.getD i.val 0 * v.getD i.val 0 := by
  induction n with
  | zero =>
    intro u v hu hv
    rw [List.length_eq_zero.mp hu, List.length_eq_zero.mp hv]
    simp [dotList]
  | succ n ih =>
    intro u v hu hv
    cases u with
    | nil => simp at hu
    | cons a u2 =>
      cases v with
      | nil => simp at hv
      | cons b v2 =>
        have hu2 : u2.length = n := by simpa using hu
        have hv2 : v2.length = n := by simpa using hv
        rw [Fin.sum_univ_succ]
        simp only [Fin.val_zero, List.getD_cons_zero, Fin.val_succ, List.getD_cons_succ]
        rw [← ih u2 v2 hu2 hv2]
        simp [dotList]

lemma transformEmbedding_ok {n : ℕ} {K : Type} (st : ServiceState n K) {G : Mat n}
    (hst : st.matrix = some G) (x : List ℝ) (hx : x.length = n) :
    transformEmbedding st x =
      .ok ((List.finRange n).map (fun i => dotv (G i) (fun j => x.getD j.val 0))) := by
  unfold transformEmbedding
  rw [hx, hst]
  simp

end Vault

namespace Vault

/-! ## Degenerate Gram-Schmidt input (claim C7) -/

lemma gsNormalize_zero {n : ℕ} (i : Fin n) : gsNormalize (zeroMat n) i = zeroMat n := by
  funext r c
  simp [gsNormalize, zeroMat]

lemma gsStep_zero {n : ℕ} (i : Fin n) : gsStep (zeroMat n) i = zeroMat n := by
  funext r c
  simp only [gsStep, gsNormalize_zero]
  simp [zeroMat, dotv]

lemma gsUpTo_zero {n : ℕ} : ∀ k, gsUpTo (zeroMat n) k = zeroMat n := by
  intro k
  induction k with
  | zero => rfl
  | succ k ih =>
    unfold gsUpTo
    rw [ih]
    split
    · exact gsStep_zero _
    · rfl

/-- Claim C7 (code_bug exhibit): the all-zero 384×384 matrix is a degenerate
Gram-Schmidt input — the very first row norm is 0, so `Nondegenerate` fails —
and yet the code's Gram-Schmidt pass completes silently and returns a matrix
(here the zero matrix; in JavaScript the division 0/0 yields NaN).  The
codomain of `gramSchmidt` / `generateOrthogonalMatrix` has no error case: no
`MatrixConstructionFailure` exists anywhere in the source, contrary to the
claim that a near-zero norm raises one. -/
theorem c7_degenerate_no_error :
    gramSchmidt (zeroMat 384) = zeroMat 384 ∧ ¬ Nondegenerate (zeroMat 384) := by
  constructor
  · exact gsUpTo_zero 384
  · intro h
    have h0 := h 0 (by norm_num)
    apply h0
    simp [gsUpTo, zeroMat, dotv]

/-! ## PRNG output range (claim C8) -/

lemma jsRem_lt_of_pos (a : ℤ) {b : ℤ} (hb : 0 < b) : jsRem a b < b := by
  unfold jsRem
  split
  · exact Int.emod_lt_of_pos a hb
  · have := Int.emod_nonneg (-a) (ne_of_gt hb)
    omega

lemma neg_lt_jsRem (a : ℤ) {b : ℤ} (hb : 0 < b) : -b < jsRem a b := by
  unfold jsRem
  split
  · have := Int.emod_nonneg a (ne_of_gt hb)
    omega
  · have := Int.emod_lt_of_pos (-a) hb
    omega

lemma jsRem_nonneg {a : ℤ} (ha : 0 ≤ a) {b : ℤ} (hb : 0 < b) : 0 ≤ jsRem a b := by
  unfold jsRem
  rw [if_pos ha]
  exact Int.emod_nonneg a (ne_of_gt hb)

lemma lcgNext_lt (s : ℤ) : lcgNext s < 233280 := jsRem_lt_of_pos _ (by norm_num)

lemma neg_lt_lcgNext (s : ℤ) : -233280 < lcgNext s := neg_lt_jsRem _ (by norm_num)

lemma lcgNext_nonneg {s : ℤ} (h : 0 ≤ s) : 0 ≤ lcgNext s := by
  unfold lcgNext
  apply jsRem_nonneg _ (by norm_num)
  nlinarith

lemma lcgState_nonneg {s0 : ℤ} (h : 0 ≤ s0) : ∀ k, 0 ≤ lcgState s0 k := by
  intro k
  induction k with
  | zero => exact h
  | succ k ih => exact lcgNext_nonneg ih

/-- Claim C8 (amended): the rolling 32-bit fold and the LCG update are as
described, but because the JavaScript remainder keeps the sign of the dividend
the value `state / 233280` returned by `next()` lies in the open interval
(-1, 1), not in [0, 1); correspondingly a raw matrix entry `next() - 0.5` lies
in (-1.5, 0.5).  When the folded seed is nonnegative every state stays
nonnegative, and only then does every `next()` lie in [0, 1) and every entry in
[-0.5, 0.5). -/
theorem c8_prng_range (cs : List ℕ) (k : ℕ) :
    (-1 < prngOutput (foldSeed cs) k ∧ prngOutput (foldSeed cs) k < 1 ∧
     -(3/2) < initialEntry (foldSeed cs) k ∧ initialEntry (foldSeed cs) k < 1/2) ∧
    (0 ≤ foldSeed cs →
      0 ≤ prngOutput (foldSeed cs) k ∧ prngOutput (foldSeed cs) k < 1 ∧
      -(1/2) ≤ initialEntry (foldSeed cs) k ∧ initialEntry (foldSeed cs) k < 1/2) := by
  have hstate : lcgState (foldSeed cs) (k + 1) = lcgNext (lcgState (foldSeed cs) k) := rfl
  have hlt : lcgState (foldSeed cs) (k + 1) < 233280 := by rw [hstate]; exact lcgNext_lt _
  have hgt : -233280 < lcgState (foldSeed cs) (k + 1) := by rw [hstate]; exact neg_lt_lcgNext _
  have hltq : (lcgState (foldSeed cs) (k + 1) : ℚ) < 233280 := by exact_mod_cast hlt
  have hgtq : (-233280 : ℚ) < (lcgState (foldSeed cs) (k + 1) : ℚ) := by exact_mod_cast hgt
  have hout1 : prngOutput (foldSeed cs) k < 1 := by
    unfold prngOutput
    rw [div_lt_one (by norm_num)]
    exact hltq
  have hout2 : -1 < prngOutput (foldSeed cs) k := by
    unfold prngOutput
    rw [lt_div_iff (by norm_num : (0:ℚ) < 233280)]
    linarith
  constructor
  · refine ⟨hout2, hout1, ?_, ?_⟩
    · unfold initialEntry; linarith
    · unfold initialEntry; linarith
  · intro hpos
    have hstate0 : 0 ≤ lcgState (foldSeed cs) (k + 1) := lcgState_nonneg hpos (k + 1)
    have hstate0q : (0:ℚ) ≤ (lcgState (foldSeed cs) (k + 1) : ℚ) := by exact_mod_cast hstate0
    have hout0 : 0 ≤ prngOutput (foldSeed cs) k := by
      unfold prngOutput
      positivity
    refine ⟨hout0, hout1, ?_, ?_⟩
    · unfold initialEntry; linarith
    · unfold initialEntry; linarith

set_option maxRecDepth 4000 in
/-- Claim C8 counterexample: for the input string "aaaaaaa" the rolling hash
folds to the negative 32-bit value -1236860927, the first LCG state is -29530,
and the first `next()` value -29530/233280 is negative — outside the claimed
range [0, 1) — so the first raw matrix entry lies below -0.5, outside the
claimed range (-0.5, 0.5). -/
theorem c8_counterexample :
    ¬ (0 ≤ prngOutput (foldSeed negFoldCodes) 0) ∧
    prngOutput (foldSeed negFoldCodes) 0 < 0 ∧
    initialEntry (foldSeed negFoldCodes) 0 < -(1/2) := by
  have h : lcgState (foldSeed negFoldCodes) 1 = -29530 := by decide
  have h1 : prngOutput (foldSeed negFoldCodes) 0 < 0 := by
    unfold prngOutput
    rw [h]
    norm_num
  have h2 : initialEntry (foldSeed negFoldCodes) 0 < -(1/2) := by
    unfold initialEntry prngOutput
    rw [h]
    norm_num
  exact ⟨fun hc => absurd h1 (not_lt.mpr hc), h1, h2⟩

/-- Witness for the claim C8 theorem at the concrete input "1" (fold value 49,
which is nonnegative, so the first output indeed lies in [0, 1)). -/
theorem c8_witness :
    0 ≤ foldSeed (strCodes "1") ∧
    0 ≤ prngOutput (foldSeed (strCodes "1")) 0 ∧
    prngOutput (foldSeed (strCodes "1")) 0 < 1 := by
  have hf : (0:ℤ) ≤ foldSeed (strCodes "1") := by decide
  have h := (c8_prng_range (strCodes "1") 0).2 hf
  exact ⟨hf, h.1, h.2.1⟩

end Vault

namespace Vault

/-! ## Claim C2: encryption round trip -/

/-- Claim C2: on a session whose key is initialized, `encryptText` outputs
`base64(IV ++ ciphertext-with-tag)` for the fresh 12-byte IV of that call (the
IV produced by the platform RNG is the `iv` argument), and `decryptText` splits
the first 12 decoded bytes as the IV and the rest as ciphertext+tag, so that
`decryptText (encryptText s) = s` for every string `s`.  The AES-GCM, base64
and UTF-8 round-trip contracts of the platform primitives — which are not part
of the repository — are hypotheses, instantiated at the buffers of this call. -/
theorem c2_roundtrip {K : Type} {n : ℕ} (P : Platform K) (st : ServiceState n K) (k : K)
    (hk : st.encryptionKey = some k) (iv : List ℕ) (s : String)
    (hiv : iv.length = 12)
    (hb : P.atob (P.btoa (iv ++ P.aesEncrypt k iv (P.utf8Encode s))) =
      some (iv ++ P.aesEncrypt k iv (P.utf8Encode s)))
    (haes : P.aesDecrypt k iv (P.aesEncrypt k iv (P.utf8Encode s)) = some (P.utf8Encode s))
    (hutf : P.utf8Decode (P.utf8Encode s) = s) :
    encryptText P st iv s = .ok (P.btoa (iv ++ P.aesEncrypt k iv (P.utf8Encode s))) ∧
    decryptText P st (P.btoa (iv ++ P.aesEncrypt k iv (P.utf8Encode s))) = .ok s := by
  constructor
  · simp only [encryptText, hk]
  · simp only [decryptText, hk, hb, List.take_left' hiv, List.drop_left' hiv, haes, hutf]

/-- Witness for claim C2 at the empty string with a 12-zero-byte IV on
`okPlatform`. -/
theorem c2_witness :
    encryptText okPlatform keyState (List.replicate 12 0) "" =
      .ok (okPlatform.btoa (List.replicate 12 0 ++
        okPlatform.aesEncrypt () (List.replicate 12 0) (okPlatform.utf8Encode ""))) ∧
    decryptText okPlatform keyState (okPlatform.btoa (List.replicate 12 0 ++
      okPlatform.aesEncrypt () (List.replicate 12 0) (okPlatform.utf8Encode ""))) = .ok "" :=
  c2_roundtrip okPlatform keyState () rfl (List.replicate 12 0) "" (by simp)
    (by simp [okPlatform]) rfl rfl

/-! ## Claim C6: authentication failure propagates, no plaintext escapes -/

/-- Claim C6: whenever the AES-GCM tag verification rejects the (possibly
tampered) ciphertext+tag obtained by splitting the decoded input — which the
platform guarantees in particular for any produced ciphertext with a byte
flipped — `decryptText` fails with `decryptionFailure`; the `.error` result
carries no plaintext, and the code has no path that returns partial output. -/
theorem c6_tamper_fails {K : Type} {n : ℕ} (P : Platform K) (st : ServiceState n K) (k : K)
    (hk : st.encryptionKey = some k) (data : String) (combined : List ℕ)
    (hd : P.atob data = some combined)
    (hfail : P.aesDecrypt k (combined.take 12) (combined.drop 12) = none) :
    decryptText P st data = .error .decryptionFailure := by
  simp only [decryptText, hk, hd, hfail]

/-- Witness for claim C6 on `rejectPlatform`, whose AES-GCM decrypt always
rejects. -/
theorem c6_witness :
    decryptText rejectPlatform keyState "x" = .error .decryptionFailure :=
  c6_tamper_fails rejectPlatform keyState () rfl "x" [] rfl rfl

/-! ## Claim C9: seed validation -/

/-- Claim C9: `validateSeed` accepts exactly the strings of six characters that
are all ASCII digits (whitespace is not a digit, so no trimming happens); for
every invalid seed, both `initializeMatrix` and `initializeMatrixFromHash`
fail with `invalidSeedFormat` in their synchronous entry segment — before any
hashing or derivation — and the lifecycle machine admits no transition for
such a call, so the session state is unchanged. -/
theorem c9_seed_validation (s : String) :
    (validateSeed s = true ↔ s.toList.length = 6 ∧ ∀ c ∈ s.toList, '0' ≤ c ∧ c ≤ '9') ∧
    (validateSeed s = false →
      initializeMatrixGate s = .error .invalidSeedFormat ∧
      initializeMatrixFromHashGate s = .error .invalidSeedFormat ∧
      ∀ (K : Type) (P : Platform K) (m m' : MState K), ¬ Step P m (.callInit s) m') := by
  constructor
  · simp [validateSeed, List.all_eq_true, Char.isDigit, Char.le_def]
  · intro hf
    refine ⟨?_, ?_, ?_⟩
    · unfold initializeMatrixGate
      rw [hf]
      simp
    · unfold initializeMatrixFromHashGate
      rw [hf]
      simp
    · intro K P m m' hstep
      cases hstep with
      | callInit h => rw [h] at hf; exact Bool.noConfusion hf

/-- Witness for claim C9 at the invalid seed "12a456". -/
theorem c9_witness :
    validateSeed "12a456" = false ∧
    initializeMatrixGate "12a456" = .error .invalidSeedFormat := by
  have hf : validateSeed "12a456" = false := by decide
  exact ⟨hf, ((c9_seed_validation "12a456").2 hf).1⟩

example : validateSeed "123456" = true := by decide
example : validateSeed "12345" = false := by decide
example : validateSeed "1234567" = false := by decide
example : validateSeed " 23456" = false := by decide

/-! ## Claim C10: the demo decryption path -/

/-- Claim C10: the demo's `SimpleEmbeddingService.decryptText` never throws —
its result does not depend on the caller-supplied `credentialsHash` and `seed`
(the key is derived from the hardcoded hash string), and whenever base64
decoding or AES-GCM decryption fails for any reason it returns the encrypted
input string unchanged, as if it were plaintext. -/
theorem c10_simple_decrypt {K : Type} (P : Platform K) (d ch1 sd1 ch2 sd2 : String) :
    simpleDecryptText P d ch1 sd1 = simpleDecryptText P d ch2 sd2 ∧
    (P.atob d = none → simpleDecryptText P d ch1 sd1 = d) ∧
    (∀ combined, P.atob d = some combined →
      P.aesDecrypt (P.importKey ((P.utf8Encode (hardcodedSeedHashString.take 64)).take 32))
        (combined.take 12) (combined.drop 12) = none →
      simpleDecryptText P d ch1 sd1 = d) := by
  refine ⟨rfl, ?_, ?_⟩
  · intro h
    unfold simpleDecryptText
    rw [h]
  · intro combined hc hfail
    unfold simpleDecryptText
    rw [hc]
    simp only [hfail]

/-- Witness for claim C10: a failing decode returns the input unchanged. -/
theorem c10_witness : simpleDecryptText trivialPlatform "abc" "h1" "111111" = "abc" :=
  (c10_simple_decrypt trivialPlatform "abc" "h1" "111111" "h2" "222222").2.1 rfl

end Vault

namespace Vault

/-! ## Claim C3: lifecycle invariant and the observable partial state -/

lemma midState_reachable {K : Type} (P : Platform K) : Reachable P (midState K) := by
  have s1 : Step P (initialMState K) (.callInit "123456")
      ⟨⟨none, none, none⟩, [.awaitingHash "123456"]⟩ :=
    Step.callInit (by decide)
  have s2 : Step P ⟨⟨none, none, none⟩, [.awaitingHash "123456"]⟩
      (.resolveHash "123456" "h") (midState K) := by
    have h : PendingInit.awaitingHash "123456" ∈
        ([.awaitingHash "123456"] : List PendingInit) := List.mem_singleton.mpr rfl
    exact @Step.resolveHash K P ⟨⟨none, none, none⟩, [.awaitingHash "123456"]⟩ "123456" "h" h
  exact Reachable.step (Reachable.step Reachable.init s1) s2

/-- Claim C3 (amended): in every reachable state the session reports Ready
(`isMatrixReady` returns true) exactly when both the matrix and the encryption
key are present; however, the "never observable" half of the claim fails — a
partially initialized state with the matrix present and the key absent is
reachable at the suspension point inside `initializeMatrix` between the matrix
assignment and the key assignment, and it is observable through a public
operation: `transformEmbedding` succeeds there (it checks only the matrix)
while `isMatrixReady` still reports false. -/
theorem c3_ready_iff_partial_observable {K : Type} (P : Platform K) :
    (∀ m : MState K, Reachable P m →
      (isMatrixReady m.svc = true ↔
        m.svc.matrix.isSome = true ∧ m.svc.encryptionKey.isSome = true)) ∧
    (∃ m : MState K, Reachable P m ∧ m.svc.matrix.isSome = true ∧
      m.svc.encryptionKey = none ∧
      (transformEmbedding m.svc (List.replicate MATRIX_SIZE (0:ℝ))).isOk = true ∧
      isMatrixReady m.svc = false) := by
  constructor
  · intro m _
    simp [isMatrixReady]
  · refine ⟨midState K, midState_reachable P, rfl, rfl, ?_, rfl⟩
    rw [transformEmbedding_ok (midState K).svc rfl _ (by simp)]
    rfl

/-- Witness for the claim C3 theorem, read off at the initial state. -/
theorem c3_witness :
    isMatrixReady (initialMState Unit).svc = true ↔
      (initialMState Unit).svc.matrix.isSome = true ∧
      (initialMState Unit).svc.encryptionKey.isSome = true :=
  (c3_ready_iff_partial_observable trivialPlatform).1 _ Reachable.init

/-- Claim C3 counterexample: the concrete machine state reached by starting
`initializeMatrix("u","p","123456")` and letting only the digest resolve is a
partially initialized session — matrix present, key absent — in which the
public `transformEmbedding` succeeds on a 384-dimensional input even though
`isMatrixReady` is false: partial initialization IS observable to callers. -/
theorem c3_counterexample :
    Reachable trivialPlatform (midState Unit) ∧
    (midState Unit).svc.matrix.isSome = true ∧
    (midState Unit).svc.encryptionKey = none ∧
    (transformEmbedding (midState Unit).svc (List.replicate MATRIX_SIZE (0:ℝ))).isOk = true ∧
    isMatrixReady (midState Unit).svc = false := by
  refine ⟨midState_reachable trivialPlatform, rfl, rfl, ?_, rfl⟩
  rw [transformEmbedding_ok (midState Unit).svc rfl _ (by simp)]
  rfl

/-! ## Claim C4: operations on a session with no secret material -/

/-- Claim C4 (amended): on a session holding neither matrix nor key — the
state before any initialize call and immediately after `clearMatrix()` (with
no in-flight initialization) — `encryptText` and `decryptText` fail with
`notInitialized` for every input, and `transformEmbedding` fails with
`notInitialized` for every input of length 384; but an input of any other
length fails with `dimensionMismatch` instead, because the length check
precedes the initialization check in the source. -/
theorem c4_not_ready_errors {K : Type} (P : Platform K) (st : ServiceState MATRIX_SIZE K)
    (hm : st.matrix = none) (hk : st.encryptionKey = none) :
    (∀ emb : List ℝ, emb.length = MATRIX_SIZE →
      transformEmbedding st emb = .error .notInitialized) ∧
    (∀ emb : List ℝ, emb.length ≠ MATRIX_SIZE →
      transformEmbedding st emb = .error (.dimensionMismatch emb.length)) ∧
    (∀ (iv : List ℕ) (text : String), encryptText P st iv text = .error .notInitialized) ∧
    (∀ d : String, decryptText P st d = .error .notInitialized) := by
  refine ⟨?_, ?_, ?_, ?_⟩
  · intro emb hlen
    unfold transformEmbedding
    rw [hlen, hm]
    simp
  · intro emb hlen
    unfold transformEmbedding
    rw [if_neg hlen]
  · intro iv text
    simp only [encryptText, hk]
  · intro d
    simp only [decryptText, hk]

/-- Witness for the claim C4 theorem at the never-initialized state. -/
theorem c4_witness :
    transformEmbedding (emptyState Unit) (List.replicate MATRIX_SIZE (0:ℝ)) =
      .error .notInitialized ∧
    encryptText trivialPlatform (emptyState Unit) [] "" = .error .notInitialized ∧
    decryptText trivialPlatform (emptyState Unit) "x" = .error .notInitialized := by
  have h := c4_not_ready_errors trivialPlatform (emptyState Unit) rfl rfl
  exact ⟨h.1 _ (by simp), h.2.2.1 [] "", h.2.2.2 "x"⟩

/-- Claim C4 counterexample: calling `transformEmbedding` with a 383-length
input on a session before any initialize fails with `dimensionMismatch 383`,
not with `notInitialized` — so it is not true that every input fails with a
NotInitialized error on a not-Ready session. -/
theorem c4_counterexample :
    transformEmbedding (emptyState Unit) (List.replicate 383 (0:ℝ)) =
      .error (.dimensionMismatch 383) ∧
    transformEmbedding (emptyState Unit) (List.replicate 383 (0:ℝ)) ≠
      .error .notInitialized := by
  have h : transformEmbedding (emptyState Unit) (List.replicate 383 (0:ℝ)) =
      .error (.dimensionMismatch 383) := by
    unfold transformEmbedding
    simp only [List.length_replicate]
    norm_num [MATRIX_SIZE]
  rw [h]
  simp

/-! ## Claim C5: dimension enforcement -/

/-- Claim C5: in every session state — initialized or not — an embedding whose
length is not exactly 384 makes `transformEmbedding` fail with
`dimensionMismatch`; the error result carries no output vector, so nothing is
truncated or zero-padded. -/
theorem c5_dimension_mismatch {K : Type} (st : ServiceState MATRIX_SIZE K) (emb : List ℝ)
    (h : emb.length ≠ MATRIX_SIZE) :
    transformEmbedding st emb = .error (.dimensionMismatch emb.length) := by
  unfold transformEmbedding
  rw [if_neg h]

/-- Witness for the claim C5 theorem: a 385-length input on a fully
initialized session. -/
theorem c5_witness :
    transformEmbedding readyState (List.replicate 385 (0:ℝ)) =
      .error (.dimensionMismatch 385) := by
  have h := c5_dimension_mismatch readyState (List.replicate 385 (0:ℝ))
    (by simp only [List.length_replicate]; norm_num [MATRIX_SIZE])
  simpa only [List.length_replicate] using h

end Vault

namespace Vault

/-! ## Claim C1: the transform preserves norms, dot products and cosine -/

lemma c1_nondeg : Nondegenerate (initialMatrixR 1 (foldSeed (strCodes "a"))) := by
  intro k hk
  have hk0 : k = 0 := Nat.lt_one_iff.mp hk
  subst hk0
  show dotv (initialMatrixR 1 (foldSeed (strCodes "a")) ⟨0, hk⟩)
      (initialMatrixR 1 (foldSeed (strCodes "a")) ⟨0, hk⟩) ≠ 0
  have hfold : foldSeed (strCodes "a") = 97 := by decide
  have hlcg : lcgState 97 1 = 18374 := by decide
  have hq : initialEntry 97 0 ≠ 0 := by
    unfold initialEntry prngOutput
    rw [hlcg]
    norm_num
  have hentry : initialMatrixR 1 (foldSeed (strCodes "a")) ⟨0, hk⟩ ⟨0, hk⟩ =
      ((initialEntry 97 0 : ℚ) : ℝ) := by
    rw [initialMatrixR, hfold]
    norm_num
  rw [dotv, Fin.sum_univ_one]
  have h0 : (⟨0, hk⟩ : Fin 1) = 0 := rfl
  rw [h0] at hentry ⊢
  rw [hentry]
  exact mul_self_ne_zero.mpr (Rat.cast_ne_zero.mpr hq)

/-- Claim C1: for the matrix built by `generateOrthogonalMatrix` from any seed
hash (under the hypothesis that the Gram-Schmidt pass meets no zero-norm row,
which the spec presumes of a PRNG-filled matrix), transforming two embeddings
of the right dimension with `transformEmbedding` under the same session matrix
preserves their dot product and Euclidean norms exactly, and the cosine of the
transformed pair equals the cosine of the originals — in particular it is
within 1e-6.  Arithmetic is the exact-real idealization of float64; the
pipeline is stated for a generic dimension `n`, of which the service's
`MATRIX_SIZE = 384` is the running instantiation. -/
theorem c1_transform_preserves {n : ℕ} {K : Type} (seedHash : String) (st : ServiceState n K)
    (hst : st.matrix = some (generateOrthogonalMatrix n seedHash))
    (hnd : Nondegenerate (initialMatrixR n (foldSeed (strCodes seedHash))))
    (a b ta tb : List ℝ) (ha : a.length = n) (hb : b.length = n)
    (hta : transformEmbedding st a = .ok ta) (htb : transformEmbedding st b = .ok tb) :
    dotList ta tb = dotList a b ∧
    normList ta = normList a ∧ normList tb = normList b ∧
    cosineList ta tb = cosineList a b ∧
    |cosineList ta tb - cosineList a b| ≤ 1e-6 := by
  set G := generateOrthogonalMatrix n seedHash with hG
  have hGortho : ∀ i j : Fin n, dotv (G i) (G j) = if i = j then 1 else 0 :=
    gramSchmidt_orthonormal _ hnd
  have hta2 : ta = (List.finRange n).map (fun i => dotv (G i) (fun j => a.getD j.val 0)) := by
    have := transformEmbedding_ok st hst a ha
    rw [hta] at this
    exact (Except.ok.injEq _ _).mp this.symm |>.symm
  have htb2 : tb = (List.finRange n).map (fun i => dotv (G i) (fun j => b.getD j.val 0)) := by
    have := transformEmbedding_ok st hst b hb
    rw [htb] at this
    exact (Except.ok.injEq _ _).mp this.symm |>.symm
  have key : ∀ (u v : List ℝ), u.length = n → v.length = n →
      dotList ((List.finRange n).map (fun i => dotv (G i) (fun j => u.getD j.val 0)))
        ((List.finRange n).map (fun i => dotv (G i) (fun j => v.getD j.val 0))) =
        dotList u v := by
    intro u v hu hv
    rw [dotList_map_finRange, dotv_transform G hGortho, dotList_eq_sum_getD u v hu hv]
    rfl
  have hdot : dotList ta tb = dotList a b := by rw [hta2, htb2, key a b ha hb]
  have hdotaa : dotList ta ta = dotList a a := by rw [hta2, key a a ha ha]
  have hdotbb : dotList tb tb = dotList b b := by rw [htb2, key b b hb hb]
  have hna : normList ta = normList a := by rw [normList, normList, hdotaa]
  have hnb : normList tb = normList b := by rw [normList, normList, hdotbb]
  have hcos : cosineList ta tb = cosineList a b := by
    rw [cosineList, cosineList, hdot, hna, hnb]
  refine ⟨hdot, hna, hnb, hcos, ?_⟩
  rw [hcos, sub_self, abs_zero]
  norm_num

/-- Witness for the claim C1 theorem at dimension 1 with seed hash "a" and the
embedding [1] (the nondegeneracy hypothesis is discharged by computing the
single PRNG entry, which is nonzero). -/
theorem c1_witness :
    dotList c1Output c1Output = dotList [(1:ℝ)] [(1:ℝ)] ∧
    normList c1Output = normList [(1:ℝ)] ∧ normList c1Output = normList [(1:ℝ)] ∧
    cosineList c1Output c1Output = cosineList [(1:ℝ)] [(1:ℝ)] ∧
    |cosineList c1Output c1Output - cosineList [(1:ℝ)] [(1:ℝ)]| ≤ 1e-6 :=
  c1_transform_preserves "a" c1State rfl c1_nondeg [(1:ℝ)] [(1:ℝ)] c1Output c1Output rfl rfl
    (transformEmbedding_ok c1State rfl [(1:ℝ)] rfl)
    (transformEmbedding_ok c1State rfl [(1:ℝ)] rfl)

end Vault
